import Mathlib

/-!
Verification of the quiz application (`app.py`) against its
natural-language specification.

The Python source is shallowly embedded below.  Conventions:

* JSON quiz documents are records with `Option String` fields; a missing
  key is `none`.  Python truthiness of an optional string field
  (`if v := quiz.get(k)`) is captured by `truthy`, which maps `none` and
  the empty string to `none`.
* Python dictionaries keyed by integers (`user_answers`,
  `option_shuffles`) are association lists; writes prepend, lookups take
  the first hit, so the latest write wins.
* Python operations that raise (`list.index` on a missing element,
  out-of-range indexing) are modelled with `Option`: a `none` result
  stands for a raised exception.
* `random.shuffle` outcomes are inputs (`randQ`, `randO`) to the step
  function: each Streamlit rerun receives the permutations the random
  generator would have produced if shuffling happens in that rerun.
* Wall-clock time is in whole seconds (`Int`); `datetime.now()` is the
  `now` input of each rerun.
-/

namespace MyQuiz

/-- A question object, fields `question`, `options`, `correct`,
`explanation` of the quiz JSON shape. -/
structure Question where
  question : String
  options : List String
  correct : String
  explanation : Option String
deriving DecidableEq, Repr

/-- A quiz document: the JSON object stored in the `quizzes` collection.
Optional keys are `Option String`; `none` means the key is absent. -/
structure QuizDoc where
  quizTitle : Option String
  department : Option String
  category : Option String
  subcategory : Option String
  level : Option String
  semester : Option String
  course : Option String
  week : Option String
  quizCategory : Option String
  questions : List Question
deriving DecidableEq, Repr

/-- Python truthiness of an optional string: `None` and `""` are falsy. -/
def truthy : Option String → Option String
  | some s => if s = "" then none else some s
  | none => none

/-- Lookup in an integer-keyed association list (Python `dict.get`):
first match wins (writes prepend, so the first match is the latest). -/
def alist_get {β : Type} : List (Nat × β) → Nat → Option β
  | [], _ => none
  | (a, b) :: t, k => if a = k then some b else alist_get t k

/-- Index of the first occurrence of `a` in `l` (Python `list.index`);
`none` models the `ValueError` raised when `a` is absent. -/
def first_index {α : Type} [DecidableEq α] : List α → α → Option Nat
  | [], _ => none
  | x :: t, a => if x = a then some 0 else (first_index t a).map (· + 1)

/-- Python `sorted(set(xs))` for strings: distinct values in ascending
lexicographic order. -/
def pySortedSet (l : List String) : List String :=
  List.insertionSort (fun a b => a ≤ b) l.dedup

/-! ### Hierarchy helpers (`get_all_levels`, `get_all_semesters`,
`get_courses_for`, lines 163-188 of `app.py`) -/

/-- Embeds `get_all_levels` (app.py lines 163-168): the sorted set of truthy
`level` values, or the fixed fallback list when no quiz has one. -/
def get_all_levels (docs : List QuizDoc) : List String :=
  let levels := docs.filterMap (fun q => truthy q.level)
  if levels = [] then ["100 Level", "200 Level", "300 Level", "400 Level"]
  else pySortedSet levels

/-- Embeds `get_all_semesters` (app.py lines 171-176). -/
def get_all_semesters (docs : List QuizDoc) : List String :=
  let sems := docs.filterMap (fun q => truthy q.semester)
  if sems = [] then ["First Semester", "Second Semester"]
  else pySortedSet sems

/-- Embeds `quiz.get("department") or quiz.get("category")` (app.py line 182):
the department if truthy, otherwise the raw `category` value. -/
def docDept (q : QuizDoc) : Option String :=
  match truthy q.department with
  | some d => some d
  | none => q.category

/-- Embeds `not selected or value in selected`: an empty filter list is a
wildcard; `None` is never an element of a list of strings. -/
def inFilter (sel : List String) (v : Option String) : Bool :=
  sel.isEmpty ||
    (match v with
     | some x => sel.contains x
     | none => false)

/-- Embeds `get_courses_for` (app.py lines 179-188): truthy `course` values of
documents matching all supplied non-empty filter lists, sorted. -/
def get_courses_for (selDepts selLevels selSems : List String)
    (docs : List QuizDoc) : List String :=
  pySortedSet (docs.filterMap (fun q =>
    if inFilter selDepts (docDept q) && inFilter selLevels q.level &&
        inFilter selSems q.semester
    then truthy q.course else none))

/-! ### Scoring (`take_quiz_section`, app.py lines 556-616) -/

/-- A question is invalid data when it has no options or its `correct`
string is not among them (app.py line 561). -/
def isDataError (q : Question) : Bool :=
  q.options.isEmpty || !(q.options.contains q.correct)

/-- One judgement of the submit loop (app.py lines 605-606): map the
presentation option index `u` back through the per-question shuffle `mp`
to the canonical option index, then compare the canonical option string
to `correct`.  `none` models the `IndexError` raised by out-of-range
indexing. -/
def judgeCore (q : Question) (mp : List Nat) (u : Nat) : Option Bool :=
  match mp.get? u with
  | none => none
  | some c =>
    match q.options.get? c with
    | none => none
    | some s => some (decide (s = q.correct))

/-- Judgement by the submit loop of a presented question `q` with stored
response `u` (app.py lines 601-606): recover the canonical index of `q`
by `original_questions.index(q)`, fetch its option shuffle (default `[]`),
then judge. -/
def judgeAt (original : List Question) (shuffles : List (Nat × List Nat))
    (q : Question) (u : Nat) : Option Bool :=
  match first_index original q with
  | none => none
  | some origI => judgeCore q ((alist_get shuffles origI).getD []) u

/-- Judging the same underlying choice against the unshuffled canonical
data: the canonical question is looked up in `original` (not the
presented copy) and the canonical option index chosen through the
shuffle map is compared to the `correct` field of that canonical question. -/
def canonicalJudge (original : List Question)
    (shuffles : List (Nat × List Nat)) (q : Question) (u : Nat) :
    Option Bool :=
  match first_index original q with
  | none => none
  | some origI =>
    match original.get? origI with
    | none => none
    | some qc => judgeCore qc ((alist_get shuffles origI).getD []) u

/-- Correct count of the submit loop (app.py lines 599-607): walk the
presented questions with their presentation positions, skip positions
without a recorded response, judge the rest; `none` when a judgement
raises. -/
def count_correct (original : List Question)
    (shuffles : List (Nat × List Nat)) (answers : List (Nat × Nat)) :
    List Question → Nat → Option Nat
  | [], _ => some 0
  | q :: rest, i =>
    match alist_get answers i with
    | none => count_correct original shuffles answers rest (i + 1)
    | some u =>
      match judgeAt original shuffles q u,
          count_correct original shuffles answers rest (i + 1) with
      | some b, some n => some ((if b then 1 else 0) + n)
      | _, _ => none

/-- Same count but judging each response against the unshuffled
canonical data via `canonicalJudge`. -/
def count_canonical (original : List Question)
    (shuffles : List (Nat × List Nat)) (answers : List (Nat × Nat)) :
    List Question → Nat → Option Nat
  | [], _ => some 0
  | q :: rest, i =>
    match alist_get answers i with
    | none => count_canonical original shuffles answers rest (i + 1)
    | some u =>
      match canonicalJudge original shuffles q u,
          count_canonical original shuffles answers rest (i + 1) with
      | some b, some n => some ((if b then 1 else 0) + n)
      | _, _ => none

/-- Embeds the Submit handler (app.py lines 598-608): the score pair
`(correct_count, len(shuffled_questions))`; `none` models a raised
exception during the loop. -/
def submit_score (original shuffled : List Question)
    (shuffles : List (Nat × List Nat)) (answers : List (Nat × Nat)) :
    Option (Nat × Nat) :=
  (count_correct original shuffles answers shuffled 0).map
    (fun c => (c, shuffled.length))

/-- The score obtained by judging every recorded choice against the
unshuffled canonical questions and options. -/
def canonical_score (original shuffled : List Question)
    (shuffles : List (Nat × List Nat)) (answers : List (Nat × Nat)) :
    Option (Nat × Nat) :=
  (count_canonical original shuffles answers shuffled 0).map
    (fun c => (c, shuffled.length))

/-- Total correct count that explicitly skips data-error questions:
each invalid question contributes `0` to the numerator; valid answered
questions contribute their judgement (`false` on a raise). -/
def count_valid (original : List Question)
    (shuffles : List (Nat × List Nat)) (answers : List (Nat × Nat)) :
    List Question → Nat → Nat
  | [], _ => 0
  | q :: rest, i =>
    (if isDataError q then 0
     else
       match alist_get answers i with
       | none => 0
       | some u => if (judgeAt original shuffles q u).getD false then 1 else 0) +
      count_valid original shuffles answers rest (i + 1)

/-- The displayed percentage (app.py line 615):
`c / t * 100 if t > 0 else 0`. -/
def display_pct (c t : Nat) : ℚ :=
  if 0 < t then (c : ℚ) / (t : ℚ) * 100 else 0

/-! ### Rendering of one question (app.py lines 556-593) -/

/-- What is rendered for one presented question: the inline data-error
marker, an active answer radio over the shuffled options, or the
disabled review radio. -/
inductive QuestionRender where
  | errorMarker : QuestionRender
  | input : List String → QuestionRender
  | review : List String → QuestionRender
deriving DecidableEq, Repr

/-- Rendering one presented question (app.py lines 557-580): the
canonical index is recovered first (`none` models its `ValueError`);
invalid data shows the inline error marker and collects no input;
otherwise the options are presented through the shuffle map (default
identity), as an active radio before the attempt ends and as a disabled
one after. -/
def render_question (original : List Question)
    (shuffles : List (Nat × List Nat)) (ended : Bool) (q : Question) :
    Option QuestionRender :=
  match first_index original q with
  | none => none
  | some origI =>
    if isDataError q then some QuestionRender.errorMarker
    else
      let mp := (alist_get shuffles origI).getD (List.range q.options.length)
      let shown := mp.filterMap (fun j => q.options.get? j)
      some (if ended then QuestionRender.review shown
            else QuestionRender.input shown)

/-! ### Timer (app.py lines 538-554) -/

/-- Outcome of the per-rerun timer computation. -/
inductive TimerStatus where
  | unlimited : TimerStatus
  | remaining : Nat → TimerStatus
  | expired : TimerStatus
deriving DecidableEq, Repr

/-- The timer computation of one rerun (app.py lines 539-554) as a pure
function of the time limit and the elapsed seconds.  A limit of `0`
minutes is falsy in Python and behaves like no limit; otherwise
`remaining = max(0, 60*limit - elapsed)` and reaching `0` expires. -/
def tick (limit : Option Nat) (elapsed : Int) : TimerStatus :=
  match limit with
  | none => TimerStatus.unlimited
  | some m =>
    if m = 0 then TimerStatus.unlimited
    else
      let r : Int := max 0 (60 * (m : Int) - elapsed)
      if r ≤ 0 then TimerStatus.expired else TimerStatus.remaining r.toNat

/-! ### Session state and the rerun step function
(`take_quiz_section`, app.py lines 481-642, plus the restart/quiz-switch
reset loops at lines 627-638 and 788-796) -/

/-- The per-session Streamlit state relevant to one attempt, plus the
in-memory quiz map and current selection.  The Python `None` assigned to
boolean keys by the reset loop is falsy, so those keys are modelled as
`Bool` with `false` for both `None` and `False`. -/
structure SessionState where
  userAnswers : List (Nat × Nat)
  showAnswers : Bool
  score : Option (Nat × Nat)
  quizStartTime : Option Int
  timeLimitMinutes : Option Nat
  timerExpired : Bool
  revealCorrect : Bool
  shuffledQuestions : Option (List Question)
  optionShuffles : List (Nat × List Nat)
  quizzes : List (String × QuizDoc)
  selectedQuiz : Option String
deriving DecidableEq, Repr

/-- The session-state defaults (app.py lines 110-131). -/
def initial_state (quizzes : List (String × QuizDoc))
    (selected : Option String) : SessionState :=
  { userAnswers := [], showAnswers := false, score := none,
    quizStartTime := none, timeLimitMinutes := none, timerExpired := false,
    revealCorrect := false, shuffledQuestions := none, optionShuffles := [],
    quizzes := quizzes, selectedQuiz := selected }

/-- One user intent carried into a rerun of `take_quiz_section`. -/
inductive UserAction where
  | rerun : UserAction
  | startQuiz : Option Nat → UserAction
  | answer : Nat → Nat → UserAction
  | submitQuiz : UserAction
  | toggleReveal : Bool → UserAction
  | restart : UserAction
deriving DecidableEq, Repr

/-- The inputs of one rerun: the user action, the wall clock, and the
permutations `random.shuffle` would produce if shuffling runs in this
rerun (`randQ` for the question order, `randO i` for the options of
question `i`). -/
structure StepInput where
  act : UserAction
  now : Int
  randQ : List Nat
  randO : Nat → List Nat

/-- Embeds `[original_questions[i] for i in shuffled_idx]`
(app.py line 498). -/
def gen_shuffled (rq : List Nat) (original : List Question) :
    List Question :=
  rq.filterMap (fun i => original.get? i)

/-- The option-shuffle generation loop (app.py lines 500-505): every
canonical question with at least one option gets the permutation the
generator supplies; questions with no options are skipped. -/
def gen_option_shuffles (ro : Nat → List Nat) (original : List Question) :
    List (Nat × List Nat) :=
  (List.range original.length).filterMap (fun i =>
    match original.get? i with
    | some q => if q.options.isEmpty then none else some (i, ro i)
    | none => none)

/-- Embeds `shuffled_questions = st.session_state.shuffled_questions or
original_questions` (app.py line 507): Python `or` falls back on `None`
and on the empty list. -/
def presented_questions (original : List Question) (s : SessionState) :
    List Question :=
  match s.shuffledQuestions with
  | some l => if l.isEmpty then original else l
  | none => original

/-- The reset loop shared by Restart (app.py lines 629-637) and
selecting a different quiz (lines 788-796): dict-valued keys are
cleared, the rest are set to `None`. -/
def reset_attempt (s : SessionState) : SessionState :=
  { s with userAnswers := [], showAnswers := false, score := none,
           quizStartTime := none, timeLimitMinutes := none,
           timerExpired := false, revealCorrect := false,
           shuffledQuestions := none, optionShuffles := [] }

/-- Embeds `quiz_ended` (app.py line 595). -/
def quiz_ended (s : SessionState) : Bool := s.showAnswers || s.timerExpired

/-- The state mutation performed by the widget handlers of one rerun,
after the timer block.  Guards reproduce which widgets are rendered:
the answer radio exists only for a valid question while answers are not
shown and the timer has not expired (app.py lines 561-574), Submit only
before the quiz ended (lines 597-610), the reveal toggle and Restart
only after (lines 612-638).  A write of a radio selection stores the
presentation option index, which the widget keeps in range. -/
def handle_action (original : List Question) (a : UserAction)
    (s : SessionState) : SessionState :=
  match a with
  | UserAction.answer i u =>
    if !s.showAnswers && !s.timerExpired then
      match (presented_questions original s).get? i with
      | some q =>
        if isDataError q then s
        else
          match first_index original q with
          | some origI =>
            let mp := (alist_get s.optionShuffles origI).getD
              (List.range q.options.length)
            if u < mp.length then
              { s with userAnswers := (i, u) :: s.userAnswers }
            else s
          | none => s
      | none => s
    else s
  | UserAction.submitQuiz =>
    if !(quiz_ended s) then
      match submit_score original (presented_questions original s)
          s.optionShuffles s.userAnswers with
      | some sc => { s with score := some sc, showAnswers := true }
      | none => s
    else s
  | UserAction.toggleReveal b =>
    if quiz_ended s then { s with revealCorrect := b } else s
  | UserAction.restart =>
    if quiz_ended s then reset_attempt s else s
  | _ => s

/-- The timer block (app.py lines 537-554) followed by the action
handlers: while in progress, an expired timer auto-ends the attempt
(`timer_expired`/`show_answers` set, `st.rerun()` stops the script
before any widget handler can run). -/
def timer_and_action (original : List Question) (now : Int)
    (a : UserAction) (s : SessionState) : SessionState :=
  match s.quizStartTime with
  | some st =>
    if s.showAnswers then handle_action original a s
    else
      match tick s.timeLimitMinutes (now - st) with
      | TimerStatus.expired =>
        { s with timerExpired := true, showAnswers := true }
      | _ => handle_action original a s
  | none => handle_action original a s

/-- One full rerun of `take_quiz_section` (app.py lines 481-642):
lines 491-494 reset the shuffles while the attempt is still configuring,
lines 495-505 generate them when absent, the Start handler (lines
511-535) records the chosen limit and the start time and ends the rerun,
and otherwise the timer block and the widget handlers run. -/
def take_quiz_step (original : List Question) (inp : StepInput)
    (s0 : SessionState) : SessionState :=
  let s1 :=
    if s0.quizStartTime = none && !s0.showAnswers then
      { s0 with shuffledQuestions := none, optionShuffles := [] }
    else s0
  let s2 :=
    if s1.shuffledQuestions = none && !original.isEmpty then
      { s1 with shuffledQuestions := some (gen_shuffled inp.randQ original),
                optionShuffles := gen_option_shuffles inp.randO original }
    else s1
  match inp.act with
  | UserAction.startQuiz limit =>
    if s2.quizStartTime = none && !s2.showAnswers then
      { s2 with timeLimitMinutes := limit, quizStartTime := some inp.now }
    else timer_and_action original inp.now (UserAction.startQuiz limit) s2
  | a => timer_and_action original inp.now a s2

/-- A sequence of reruns. -/
def run_steps (original : List Question) (inps : List StepInput)
    (s : SessionState) : SessionState :=
  inps.foldl (fun st inp => take_quiz_step original inp st) s

/-! ### Persistence (`save_quiz` / `load_quizzes`,
app.py lines 60-88) -/

/-- MongoDB `replace_one({"quiz_title": title}, d, upsert=True)` on a
collection with a unique index on `quiz_title`: replace the first (and
under the index, only) document keyed by `title`, or insert. -/
def replace_one (title : String) (d : QuizDoc) :
    List QuizDoc → List QuizDoc
  | [] => [d]
  | q :: rest =>
    if q.quizTitle = some title then d :: rest
    else q :: replace_one title d rest

/-- Embeds `save_quiz` (app.py lines 72-82): copy the submitted data, overwrite
its `quiz_title` with the key title, then upsert by title. -/
def save_quiz (title : String) (data : QuizDoc)
    (store : List QuizDoc) : List QuizDoc :=
  replace_one title { data with quizTitle := some title } store

/-- Embeds `load_quizzes` (app.py lines 60-69): the session quiz map, keyed by
each document, under its own truthy `quiz_title`. -/
def load_quizzes (store : List QuizDoc) : List (String × QuizDoc) :=
  store.filterMap (fun d =>
    match truthy d.quizTitle with
    | some t => some (t, d)
    | none => none)

/-- Retrieval of the document saved under a title: the first document
whose `quiz_title` equals it. -/
def find_by_title (t : String) (store : List QuizDoc) : Option QuizDoc :=
  store.find? (fun d => d.quizTitle = some t)

/-! ### Concrete inputs used by counterexamples and witnesses -/

/-- A well-formed three-option question. -/
def q1ex : Question := ⟨"p1", ["a", "b", "c"], "b", none⟩

/-- A well-formed two-option question. -/
def q2ex : Question := ⟨"p2", ["x", "y"], "y", some "because"⟩

/-- A data-error question: `correct` is not one of `options`. -/
def badQex : Question := ⟨"pb", ["a", "b"], "zz", none⟩

/-- An empty quiz document, for building facet examples. -/
def emptyDoc : QuizDoc :=
  { quizTitle := none, department := none, category := none,
    subcategory := none, level := none, semester := none, course := none,
    week := none, quizCategory := none, questions := [] }

/-- A document in department A with no course value. -/
def docAex : QuizDoc := { emptyDoc with department := some "A" }

/-- A document in department B offering course c2. -/
def docBex : QuizDoc := { emptyDoc with department := some "B", course := some "c2" }

/-- A document carrying a level value. -/
def docLex : QuizDoc := { emptyDoc with level := some "200 Level" }

/-- An in-progress attempt on `[q1ex]` with a five-minute limit started
at time 0, one recorded response, and no score yet. -/
def sIpEx : SessionState :=
  { userAnswers := [(0, 0)], showAnswers := false, score := none,
    quizStartTime := some 0, timeLimitMinutes := some 5,
    timerExpired := false, revealCorrect := false,
    shuffledQuestions := some [q1ex], optionShuffles := [(0, [1, 0, 2])],
    quizzes := [("T", emptyDoc)], selectedQuiz := some "T" }

/-- An ended attempt (answers shown), for exercising restart. -/
def sEndedEx : SessionState :=
  { userAnswers := [(0, 1)], showAnswers := true, score := some (0, 1),
    quizStartTime := some 0, timeLimitMinutes := some 5,
    timerExpired := false, revealCorrect := true,
    shuffledQuestions := some [q1ex], optionShuffles := [(0, [1, 0, 2])],
    quizzes := [("T", emptyDoc)], selectedQuiz := some "T" }

/-! ## Helper lemmas -/

/-- Correctness of `first_index`: the returned index holds the element. -/
theorem first_index_get {α : Type} [DecidableEq α] (a : α) :
    ∀ (l : List α) (i : Nat), first_index l a = some i → l.get? i = some a := by
  intro l
  induction l with
  | nil => intro i h; simp [first_index] at h
  | cons x t ih =>
    intro i h
    simp only [first_index] at h
    split at h
    · next hx =>
      rw [Option.some.injEq] at h
      subst h
      simp [hx]
    · next hx =>
      rcases Option.map_eq_some'.mp h with ⟨j, hj, rfl⟩
      simpa using ih j hj

/-- The judgement of the submit loop coincides with judging the
underlying choice against the unshuffled canonical question. -/
theorem judgeAt_eq_canonicalJudge (original : List Question)
    (shuffles : List (Nat × List Nat)) (q : Question) (u : Nat) :
    judgeAt original shuffles q u = canonicalJudge original shuffles q u := by
  unfold judgeAt canonicalJudge
  cases h : first_index original q with
  | none => rfl
  | some origI =>
    dsimp only
    rw [first_index_get q original origI h]

/-- The correct counts coincide position by position. -/
theorem count_correct_eq_canonical (original : List Question)
    (shuffles : List (Nat × List Nat)) (answers : List (Nat × Nat)) :
    ∀ (l : List Question) (i : Nat),
      count_correct original shuffles answers l i =
        count_canonical original shuffles answers l i := by
  intro l
  induction l with
  | nil => intro i; rfl
  | cons q rest ih =>
    intro i
    simp only [count_correct, count_canonical,
      judgeAt_eq_canonicalJudge, ih]

/-! ## C1: shuffle-scoring correspondence -/

/-- C1.  For every attempt and every presentation position with a
recorded response, the score computed at submit (mapping the chosen
presentation option index back through the per-question option shuffle
and comparing to `correct`) equals the score obtained by judging the
same underlying choice against the unshuffled canonical questions and
options; moreover two shuffle maps selecting the same canonical option
yield the same judgement, so shuffling never changes which answer is
judged correct. -/
theorem shuffle_scoring_correspondence (original shuffled : List Question)
    (shuffles : List (Nat × List Nat)) (answers : List (Nat × Nat)) :
    submit_score original shuffled shuffles answers =
      canonical_score original shuffled shuffles answers ∧
    (∀ (q : Question) (u : Nat),
      judgeAt original shuffles q u = canonicalJudge original shuffles q u) ∧
    (∀ (q : Question) (mp₁ mp₂ : List Nat) (u₁ u₂ : Nat),
      mp₁.get? u₁ = mp₂.get? u₂ → judgeCore q mp₁ u₁ = judgeCore q mp₂ u₂) := by
  refine ⟨?_, ?_, ?_⟩
  · unfold submit_score canonical_score
    rw [count_correct_eq_canonical]
  · intro q u
    exact judgeAt_eq_canonicalJudge original shuffles q u
  · intro q mp₁ mp₂ u₁ u₂ h
    unfold judgeCore
    rw [h]

/-- Closed instance of C1: a two-question attempt with shuffled
presentation, one correct and one incorrect response. -/
theorem shuffle_scoring_correspondence_witness :
    submit_score [q1ex, q2ex] [q2ex, q1ex] [(0, [1, 0]), (1, [0, 1])]
        [(0, 0), (1, 0)] =
      canonical_score [q1ex, q2ex] [q2ex, q1ex] [(0, [1, 0]), (1, [0, 1])]
        [(0, 0), (1, 0)] ∧
    submit_score [q1ex, q2ex] [q2ex, q1ex] [(0, [1, 0]), (1, [0, 1])]
        [(0, 0), (1, 0)] = some (1, 2) :=
  ⟨(shuffle_scoring_correspondence [q1ex, q2ex] [q2ex, q1ex]
      [(0, [1, 0]), (1, [0, 1])] [(0, 0), (1, 0)]).1, by decide⟩

/-! ## C4: timer arithmetic -/

/-- C4.  With a time limit of `m` minutes (`T = 60*m` seconds) and start
time `s`, the timer computation at time `now` yields remaining seconds
`max 0 (T - (now - s))`, expiring exactly when that reaches `0`; with
`s = now - T - 1` the result is Expired, with `s = now` it is
`Remaining T`, and with no limit set it never expires. -/
theorem timer_arithmetic (m : Nat) (now s e : Int) (h : 0 < m) :
    (s = now - 60 * (m : Int) - 1 →
      tick (some m) (now - s) = TimerStatus.expired) ∧
    (s = now → tick (some m) (now - s) = TimerStatus.remaining (60 * m)) ∧
    tick none e = TimerStatus.unlimited ∧
    tick (some m) e =
      (if 60 * (m : Int) - e ≤ 0 then TimerStatus.expired
       else TimerStatus.remaining (max 0 (60 * (m : Int) - e)).toNat) := by
  have hm : ¬ m = 0 := by omega
  have key : ∀ e' : Int, tick (some m) e' =
      (if 60 * (m : Int) - e' ≤ 0 then TimerStatus.expired
       else TimerStatus.remaining (max 0 (60 * (m : Int) - e')).toNat) := by
    intro e'
    unfold tick
    simp only [hm, if_false]
    by_cases hle : 60 * (m : Int) - e' ≤ 0
    · have hmax : max 0 (60 * (m : Int) - e') = 0 := max_eq_left hle
      simp [hmax, hle]
    · have hpos : 0 < 60 * (m : Int) - e' := lt_of_not_ge hle
      have hmax : max 0 (60 * (m : Int) - e') = 60 * (m : Int) - e' :=
        max_eq_right hpos.le
      simp [hmax, hle, not_le.mpr hpos]
  refine ⟨?_, ?_, rfl, key e⟩
  · intro hs
    subst hs
    have harith : now - (now - 60 * (m : Int) - 1) = 60 * (m : Int) + 1 := by
      ring
    rw [harith, key]
    have : 60 * (m : Int) - (60 * (m : Int) + 1) ≤ 0 := by omega
    simp [this]
  · intro hs
    rw [hs, sub_self, key]
    have h1 : ¬ (60 * (m : Int) - 0 ≤ 0) := by omega
    have hmax : max 0 (60 * (m : Int) - 0) = 60 * (m : Int) := by
      rw [sub_zero]
      exact max_eq_right (by positivity)
    rw [if_neg h1, hmax]
    congr 1

/-- Closed instance of C4 at a five-minute limit. -/
theorem timer_arithmetic_witness :
    (0 : Nat) < 5 ∧
    tick (some 5) ((1000 : Int) - (1000 - 60 * 5 - 1)) = TimerStatus.expired ∧
    tick (some 5) ((1000 : Int) - 1000) = TimerStatus.remaining 300 ∧
    tick none 7 = TimerStatus.unlimited :=
  ⟨by decide,
   (timer_arithmetic 5 1000 (1000 - 60 * 5 - 1) 7 (by decide)).1 rfl,
   (timer_arithmetic 5 1000 1000 7 (by decide)).2.1 rfl,
   (timer_arithmetic 5 1000 1000 7 (by decide)).2.2.1⟩

/-! ## C5: facet fallback -/

/-- Membership in a sorted set is membership in the underlying list. -/
theorem pySortedSet_mem (l : List String) (x : String) :
    x ∈ pySortedSet l ↔ x ∈ l := by
  rw [pySortedSet, List.mem_insertionSort, List.mem_dedup]

/-- Sorted sets are sorted. -/
theorem pySortedSet_sorted (l : List String) :
    List.Sorted (fun a b => a ≤ b) (pySortedSet l) :=
  List.sorted_insertionSort _ l.dedup

/-- Sorted sets have no duplicates. -/
theorem pySortedSet_nodup (l : List String) : (pySortedSet l).Nodup :=
  (List.perm_insertionSort _ l.dedup).nodup_iff.mpr l.nodup_dedup

/-- C5.  On an empty collection, or one in which no document has a
truthy value for the field, the levels facet returns exactly the fixed
four-level list and the semesters facet the fixed two-semester list;
when at least one document has the field, the result is instead the
sorted duplicate-free list of the present field values. -/
theorem facet_fallback (docs : List QuizDoc) :
    get_all_levels [] = ["100 Level", "200 Level", "300 Level", "400 Level"] ∧
    get_all_semesters [] = ["First Semester", "Second Semester"] ∧
    ((∀ q ∈ docs, truthy q.level = none) →
      get_all_levels docs =
        ["100 Level", "200 Level", "300 Level", "400 Level"]) ∧
    ((∀ q ∈ docs, truthy q.semester = none) →
      get_all_semesters docs = ["First Semester", "Second Semester"]) ∧
    ((∃ q ∈ docs, (truthy q.level).isSome) →
      List.Sorted (fun a b => a ≤ b) (get_all_levels docs) ∧
      (get_all_levels docs).Nodup ∧
      (∀ x, x ∈ get_all_levels docs ↔ ∃ q ∈ docs, truthy q.level = some x)) ∧
    ((∃ q ∈ docs, (truthy q.semester).isSome) →
      List.Sorted (fun a b => a ≤ b) (get_all_semesters docs) ∧
      (get_all_semesters docs).Nodup ∧
      (∀ x, x ∈ get_all_semesters docs ↔
        ∃ q ∈ docs, truthy q.semester = some x)) := by
  have hgen : ∀ (f : QuizDoc → Option String),
      ((∀ q ∈ docs, f q = none) → docs.filterMap f = []) ∧
      ((∃ q ∈ docs, (f q).isSome) → docs.filterMap f ≠ []) := by
    intro f
    constructor
    · intro h
      simp only [List.filterMap_eq_nil_iff]
      exact h
    · rintro ⟨q, hq, hsome⟩ hnil
      rcases Option.isSome_iff_exists.mp hsome with ⟨x, hx⟩
      have : x ∈ docs.filterMap f := List.mem_filterMap.mpr ⟨q, hq, hx⟩
      rw [hnil] at this
      exact absurd this (List.not_mem_nil x)
  refine ⟨rfl, rfl, ?_, ?_, ?_, ?_⟩
  · intro h
    unfold get_all_levels
    rw [(hgen (fun q => truthy q.level)).1 h]
    rfl
  · intro h
    unfold get_all_semesters
    rw [(hgen (fun q => truthy q.semester)).1 h]
    rfl
  · intro hex
    have hne := (hgen (fun q => truthy q.level)).2 hex
    unfold get_all_levels
    rw [if_neg hne]
    refine ⟨pySortedSet_sorted _, pySortedSet_nodup _, fun x => ?_⟩
    rw [pySortedSet_mem, List.mem_filterMap]
  · intro hex
    have hne := (hgen (fun q => truthy q.semester)).2 hex
    unfold get_all_semesters
    rw [if_neg hne]
    refine ⟨pySortedSet_sorted _, pySortedSet_nodup _, fun x => ?_⟩
    rw [pySortedSet_mem, List.mem_filterMap]

/-- Closed instance of C5: the fallback lists, and a collection with one
level value present. -/
theorem facet_fallback_witness :
    get_all_levels [] = ["100 Level", "200 Level", "300 Level", "400 Level"] ∧
    get_all_semesters [] = ["First Semester", "Second Semester"] ∧
    get_all_levels [docLex] = ["200 Level"] ∧
    ("200 Level" ∈ get_all_levels [docLex] ↔
      ∃ q ∈ [docLex], truthy q.level = some "200 Level") :=
  ⟨(facet_fallback []).1, (facet_fallback []).2.1, by decide,
   ((facet_fallback [docLex]).2.2.2.2.1
     ⟨docLex, by decide, by decide⟩).2.2 "200 Level"⟩

/-! ## C10: title-key coherence of saves -/

/-- A `replace_one` result is findable under the key when the inserted
document carries it. -/
theorem find_replace_one (title : String) (d : QuizDoc)
    (hd : d.quizTitle = some title) :
    ∀ store : List QuizDoc,
      find_by_title title (replace_one title d store) = some d := by
  intro store
  induction store with
  | nil => simp [replace_one, find_by_title, List.find?, hd]
  | cons q rest ih =>
    by_cases hq : q.quizTitle = some title
    · simp [replace_one, find_by_title, List.find?, hq, hd]
    · simp only [replace_one, if_neg hq]
      simpa [find_by_title, List.find?, hq] using ih

/-- Documents of a `replace_one` result are the inserted one or come
from the old store. -/
theorem mem_replace_one (title : String) (d : QuizDoc) :
    ∀ (store : List QuizDoc) (x : QuizDoc),
      x ∈ replace_one title d store → x = d ∨ x ∈ store := by
  intro store
  induction store with
  | nil => intro x hx; simp [replace_one] at hx; exact Or.inl hx
  | cons q rest ih =>
    intro x hx
    by_cases hq : q.quizTitle = some title
    · rw [replace_one, if_pos hq] at hx
      rcases List.mem_cons.mp hx with h | h
      · exact Or.inl h
      · exact Or.inr (List.mem_cons_of_mem q h)
    · rw [replace_one, if_neg hq] at hx
      rcases List.mem_cons.mp hx with h | h
      · exact Or.inr (h ▸ List.mem_cons_self q rest)
      · rcases ih x h with h' | h'
        · exact Or.inl h'
        · exact Or.inr (List.mem_cons_of_mem q h')

/-- Truthiness preserves the carried string. -/
theorem truthy_eq_some {o : Option String} {t : String}
    (h : truthy o = some t) : o = some t := by
  cases o with
  | none => simp [truthy] at h
  | some s =>
    simp only [truthy] at h
    by_cases hs : s = ""
    · rw [if_pos hs] at h
      exact absurd h (by simp)
    · rw [if_neg hs] at h
      exact h

/-- C10.  Every save through `save_quiz` overwrites the stored document
with the key title: retrieving the saved title yields the submitted data
with `quiz_title` set to it, whatever `quiz_title` the submitted JSON
contained; every document of the new store is the saved one or an
untouched old one; and any document the session map holds under title
`t` has `quiz_title = t`. -/
theorem title_key_coherence (title : String) (data : QuizDoc)
    (store : List QuizDoc) :
    find_by_title title (save_quiz title data store) =
      some { data with quizTitle := some title } ∧
    (∀ x : Option String,
      save_quiz title { data with quizTitle := x } store =
        save_quiz title data store) ∧
    (∀ (s' : List QuizDoc) (t : String) (d : QuizDoc),
      (t, d) ∈ load_quizzes s' → d.quizTitle = some t) ∧
    (∀ d ∈ save_quiz title data store,
      d = { data with quizTitle := some title } ∨ d ∈ store) := by
  refine ⟨?_, ?_, ?_, ?_⟩
  · exact find_replace_one title _ rfl store
  · intro x
    rfl
  · intro s' t d hmem
    rcases List.mem_filterMap.mp hmem with ⟨d', hd', heq⟩
    revert heq
    cases h : truthy d'.quizTitle with
    | none => intro heq; simp at heq
    | some t' =>
      intro heq
      rw [Option.some.injEq, Prod.mk.injEq] at heq
      obtain ⟨rfl, rfl⟩ := heq
      exact truthy_eq_some h
  · intro d hd
    exact mem_replace_one title _ store d hd

/-- Closed instance of C10: saving a document whose own title differs
from the key. -/
theorem title_key_coherence_witness :
    find_by_title "T" (save_quiz "T" { emptyDoc with quizTitle := some "other" } []) =
      some { emptyDoc with quizTitle := some "T" } ∧
    save_quiz "T" { emptyDoc with quizTitle := some "other" } [] =
      save_quiz "T" emptyDoc [] :=
  ⟨(title_key_coherence "T" { emptyDoc with quizTitle := some "other" } []).1,
   (title_key_coherence "T" emptyDoc []).2.1 (some "other")⟩

/-! ## C7: zero-question quiz safety -/

/-- C7.  Submitting an attempt on a document with no questions yields
the score `(0, 0)`; the displayed percentage at total `0` is `0`, not a
division error; and starting then immediately submitting through the
rerun step function on an empty question list records `(0, 0)`. -/
theorem zero_question_quiz (s0 : SessionState) (lim : Option Nat)
    (inp1 inp2 : StepInput)
    (h0 : s0.quizStartTime = none) (h1 : s0.showAnswers = false)
    (h2 : s0.timerExpired = false)
    (ha1 : inp1.act = UserAction.startQuiz lim)
    (ha2 : inp2.act = UserAction.submitQuiz)
    (hnx : tick lim (inp2.now - inp1.now) ≠ TimerStatus.expired) :
    (∀ (σ : List (Nat × List Nat)) (ans : List (Nat × Nat)),
      submit_score [] [] σ ans = some (0, 0)) ∧
    display_pct 0 0 = 0 ∧
    (∀ c : Nat, display_pct c 0 = 0) ∧
    (take_quiz_step [] inp2 (take_quiz_step [] inp1 s0)).score =
      some (0, 0) := by
  refine ⟨fun σ ans => rfl, by simp [display_pct],
    fun c => by simp [display_pct], ?_⟩
  obtain ⟨a1, n1, rq1, ro1⟩ := inp1
  obtain ⟨a2, n2, rq2, ro2⟩ := inp2
  simp only at ha1 ha2 hnx
  subst ha1
  subst ha2
  obtain ⟨ua, sa, sc, qst, tl, te, rc, sq, os, qz, sel⟩ := s0
  simp only at h0 h1 h2
  subst h0
  subst h1
  subst h2
  have hstep1 : take_quiz_step []
      ⟨UserAction.startQuiz lim, n1, rq1, ro1⟩
      ⟨ua, false, sc, none, tl, false, rc, sq, os, qz, sel⟩ =
      ⟨ua, false, sc, some n1, lim, false, rc, none, [], qz, sel⟩ := rfl
  rw [hstep1]
  cases htick : tick lim (n2 - n1) with
  | expired => exact absurd htick hnx
  | unlimited =>
    simp [take_quiz_step, timer_and_action, handle_action, quiz_ended,
      presented_questions, submit_score, count_correct, htick]
  | remaining r =>
    simp [take_quiz_step, timer_and_action, handle_action, quiz_ended,
      presented_questions, submit_score, count_correct, htick]

/-- Closed instance of C7: start with no timer at time 0, submit at
time 5, on a document with an empty question list. -/
theorem zero_question_quiz_witness :
    (take_quiz_step []
      ⟨UserAction.submitQuiz, 5, [], fun _ => []⟩
      (take_quiz_step []
        ⟨UserAction.startQuiz none, 0, [], fun _ => []⟩
        (initial_state [("T", emptyDoc)] (some "T")))).score = some (0, 0) ∧
    display_pct 0 0 = 0 :=
  ⟨(zero_question_quiz (initial_state [("T", emptyDoc)] (some "T")) none
      ⟨UserAction.startQuiz none, 0, [], fun _ => []⟩
      ⟨UserAction.submitQuiz, 5, [], fun _ => []⟩
      rfl rfl rfl rfl rfl (by decide)).2.2.2,
   (zero_question_quiz (initial_state [("T", emptyDoc)] (some "T")) none
      ⟨UserAction.startQuiz none, 0, [], fun _ => []⟩
      ⟨UserAction.submitQuiz, 5, [], fun _ => []⟩
      rfl rfl rfl rfl rfl (by decide)).2.1⟩

/-! ## C2: data-error resilience -/

/-- When every recorded response sits at a valid, in-range position —
which is what the rendering path guarantees, since invalid questions get
no radio — the submit count equals the count that explicitly skips
data-error questions. -/
theorem count_correct_eq_valid (original : List Question)
    (shuffles : List (Nat × List Nat)) (answers : List (Nat × Nat)) :
    ∀ (l : List Question) (i : Nat),
      (∀ (k u : Nat), alist_get answers (i + k) = some u →
        ∃ q, l.get? k = some q ∧ isDataError q = false ∧
          ∃ origI mp c, first_index original q = some origI ∧
            alist_get shuffles origI = some mp ∧
            mp.get? u = some c ∧ c < q.options.length) →
      count_correct original shuffles answers l i =
        some (count_valid original shuffles answers l i) := by
  intro l
  induction l with
  | nil => intro i h; rfl
  | cons q rest ih =>
    intro i h
    have hrest : ∀ (k u : Nat), alist_get answers (i + 1 + k) = some u →
        ∃ q', rest.get? k = some q' ∧ isDataError q' = false ∧
          ∃ origI mp c, first_index original q' = some origI ∧
            alist_get shuffles origI = some mp ∧
            mp.get? u = some c ∧ c < q'.options.length := by
      intro k u hk
      have hk' : alist_get answers (i + (k + 1)) = some u := by
        have : i + (k + 1) = i + 1 + k := by omega
        rw [this]
        exact hk
      rcases h (k + 1) u hk' with ⟨q', hq', hrest'⟩
      exact ⟨q', by simpa using hq', hrest'⟩
    cases hai : alist_get answers i with
    | none =>
      simp only [count_correct, count_valid, hai]
      rw [ih (i + 1) hrest]
      simp
    | some u =>
      obtain ⟨q0, hq0, herr, origI, mp, c, hfi, hmp, hc, hclen⟩ :=
        h 0 u (by simpa using hai)
      have hq : q = q0 := by simpa using hq0
      subst hq
      have hopt : q.options.get? c = some (q.options.get ⟨c, hclen⟩) :=
        List.get?_eq_get hclen
      have hb : judgeAt original shuffles q u =
          some (decide (q.options.get ⟨c, hclen⟩ = q.correct)) := by
        unfold judgeAt judgeCore
        rw [hfi]
        dsimp only
        rw [hmp, Option.getD_some, hc]
        dsimp only
        rw [hopt]
      simp only [count_correct, count_valid, hai, hb, herr,
        Bool.false_eq_true, if_false, ih (i + 1) hrest, Option.getD_some]

/-- C2 fails as stated: a quiz whose single question has `correct`
absent from `options` renders the inline error marker, collects no
response, and submit succeeds without raising — but the invalid question
still counts `1` toward the denominator of the reported score, not `0`. -/
theorem data_error_denominator_counterexample :
    render_question [badQex] [(0, [0, 1])] false badQex =
      some QuestionRender.errorMarker ∧
    submit_score [badQex] [badQex] [(0, [0, 1])] [] = some (0, 1) ∧
    (submit_score [badQex] [badQex] [(0, [0, 1])] []).map Prod.snd ≠
      some 0 := by
  refine ⟨by decide, by decide, by decide⟩

/-- C2 (amended).  A question whose `correct` string is not among its
`options` (or whose `options` list is empty) renders the inline error
marker and is excluded from input collection; submit does not raise and
the question contributes `0` to the correct count — but it still counts
toward the reported total, which is the number of presented questions. -/
theorem data_error_resilience_amended (original shuffled : List Question)
    (shuffles : List (Nat × List Nat)) (answers : List (Nat × Nat))
    (hans : ∀ (i u : Nat), alist_get answers i = some u →
      ∃ q, shuffled.get? i = some q ∧ isDataError q = false ∧
        ∃ origI mp c, first_index original q = some origI ∧
          alist_get shuffles origI = some mp ∧
          mp.get? u = some c ∧ c < q.options.length) :
    submit_score original shuffled shuffles answers =
      some (count_valid original shuffles answers shuffled 0,
            shuffled.length) ∧
    (∀ q : Question, first_index original q ≠ none → isDataError q = true →
      ∀ ended : Bool,
        render_question original shuffles ended q =
          some QuestionRender.errorMarker) := by
  constructor
  · unfold submit_score
    rw [count_correct_eq_valid original shuffles answers shuffled 0
      (fun k u hk => hans k u (by simpa using hk))]
    rfl
  · intro q hfi herr ended
    unfold render_question
    cases h : first_index original q with
    | none => exact absurd h hfi
    | some origI =>
      dsimp only
      rw [if_pos herr]

/-- Closed instance of C2 (amended): one valid answered question, one
invalid question; submit succeeds with score `1 / 2` — the invalid
question adds nothing to the numerator but one to the denominator. -/
theorem data_error_resilience_amended_witness :
    submit_score [q1ex, badQex] [q1ex, badQex]
        [(0, [1, 0, 2]), (1, [0, 1])] [(0, 0)] =
      some (count_valid [q1ex, badQex] [(0, [1, 0, 2]), (1, [0, 1])]
              [(0, 0)] [q1ex, badQex] 0,
            ([q1ex, badQex] : List Question).length) ∧
    submit_score [q1ex, badQex] [q1ex, badQex]
        [(0, [1, 0, 2]), (1, [0, 1])] [(0, 0)] = some (1, 2) := by
  refine ⟨(data_error_resilience_amended _ _ _ _ ?_).1, by decide⟩
  intro i u h
  cases i with
  | zero =>
    simp only [alist_get, if_pos, Option.some.injEq] at h
    subst h
    exact ⟨q1ex, by decide, by decide, 0, [1, 0, 2], 1,
      by decide, by decide, by decide, by decide⟩
  | succ n =>
    simp [alist_get] at h

/-! ## C6: cascading filter soundness and monotonicity -/

/-- Replacing a filter list by a subset only removes matches — provided
the replacement is non-empty or the original was already empty, since an
empty filter list is a wildcard. -/
theorem inFilter_mono (sel sel' : List String) (v : Option String)
    (hsub : sel' ⊆ sel) (h0 : sel' ≠ [] ∨ sel = [])
    (h : inFilter sel' v = true) : inFilter sel v = true := by
  unfold inFilter at h ⊢
  rw [Bool.or_eq_true] at h ⊢
  rcases h with h1 | h2
  · rcases h0 with h0 | h0
    · exact absurd (List.isEmpty_iff.mp h1) h0
    · exact Or.inl (List.isEmpty_iff.mpr h0)
  · right
    cases v with
    | none => simp at h2
    | some x =>
      have hx : x ∈ sel' := by simpa using h2
      simpa using hsub hx

/-- C6 fails as stated: the empty list is a subset of every filter set,
but replacing a non-empty department filter by the empty one turns it
into a wildcard, and the course facet grows instead of shrinking. -/
theorem cascading_filter_counterexample :
    ([] : List String) ⊆ ["A"] ∧
    ¬ (get_courses_for [] [] [] [docAex, docBex] ⊆
        get_courses_for ["A"] [] [] [docAex, docBex]) := by
  refine ⟨List.nil_subset _, fun h => ?_⟩
  have h1 : get_courses_for [] [] [] [docAex, docBex] = ["c2"] := rfl
  have h2 : get_courses_for ["A"] [] [] [docAex, docBex] = [] := rfl
  have hmem : "c2" ∈ get_courses_for [] [] [] [docAex, docBex] := by
    rw [h1]
    exact List.mem_singleton.mpr rfl
  have := h hmem
  rw [h2] at this
  exact absurd this (List.not_mem_nil _)

/-- C6 (amended).  Every course returned by the courses facet comes from
at least one document matching all supplied non-empty filter lists; and
replacing any filter list by a subset yields a subset result, provided
each replacement is non-empty unless the original was already empty (an
empty replacement of a non-empty filter is a wildcard and can enlarge
the result). -/
theorem cascading_filter_amended (dep lvl sem dep' lvl' sem' : List String)
    (docs : List QuizDoc)
    (hd : dep' ⊆ dep) (hl : lvl' ⊆ lvl) (hs : sem' ⊆ sem)
    (hd0 : dep' ≠ [] ∨ dep = []) (hl0 : lvl' ≠ [] ∨ lvl = [])
    (hs0 : sem' ≠ [] ∨ sem = []) :
    (∀ c ∈ get_courses_for dep lvl sem docs,
      ∃ q ∈ docs,
        (inFilter dep (docDept q) && inFilter lvl q.level &&
          inFilter sem q.semester) = true ∧
        truthy q.course = some c) ∧
    get_courses_for dep' lvl' sem' docs ⊆ get_courses_for dep lvl sem docs := by
  constructor
  · intro c hc
    rw [get_courses_for, pySortedSet_mem, List.mem_filterMap] at hc
    rcases hc with ⟨q, hq, hfq⟩
    by_cases hcond : (inFilter dep (docDept q) && inFilter lvl q.level &&
        inFilter sem q.semester) = true
    · rw [if_pos hcond] at hfq
      exact ⟨q, hq, hcond, hfq⟩
    · rw [if_neg hcond] at hfq
      exact absurd hfq (by simp)
  · intro c hc
    rw [get_courses_for, pySortedSet_mem, List.mem_filterMap] at hc ⊢
    rcases hc with ⟨q, hq, hfq⟩
    refine ⟨q, hq, ?_⟩
    by_cases hcond : (inFilter dep' (docDept q) && inFilter lvl' q.level &&
        inFilter sem' q.semester) = true
    · rw [if_pos hcond] at hfq
      rw [Bool.and_eq_true, Bool.and_eq_true] at hcond
      obtain ⟨⟨h1, h2⟩, h3⟩ := hcond
      have h1' := inFilter_mono dep dep' (docDept q) hd hd0 h1
      have h2' := inFilter_mono lvl lvl' q.level hl hl0 h2
      have h3' := inFilter_mono sem sem' q.semester hs hs0 h3
      have hcond' : (inFilter dep (docDept q) && inFilter lvl q.level &&
          inFilter sem q.semester) = true := by
        rw [Bool.and_eq_true, Bool.and_eq_true]
        exact ⟨⟨h1', h2'⟩, h3'⟩
      rw [if_pos hcond']
      exact hfq
    · rw [if_neg hcond] at hfq
      exact absurd hfq (by simp)

/-- Closed instance of C6 (amended): narrowing the department filter
from two departments to one shrinks the course facet, and every
returned course comes from a matching document. -/
theorem cascading_filter_amended_witness :
    get_courses_for ["A"] [] [] [docAex, docBex] ⊆
      get_courses_for ["A", "B"] [] [] [docAex, docBex] ∧
    (∀ c ∈ get_courses_for ["A", "B"] [] [] [docAex, docBex],
      ∃ q ∈ [docAex, docBex],
        (inFilter ["A", "B"] (docDept q) && inFilter [] q.level &&
          inFilter [] q.semester) = true ∧
        truthy q.course = some c) :=
  ⟨(cascading_filter_amended ["A", "B"] [] [] ["A"] [] []
      [docAex, docBex] (by decide) (by decide) (by decide)
      (Or.inl (by decide)) (Or.inr rfl) (Or.inr rfl)).2,
   (cascading_filter_amended ["A", "B"] [] [] ["A"] [] []
      [docAex, docBex] (by decide) (by decide) (by decide)
      (Or.inl (by decide)) (Or.inr rfl) (Or.inr rfl)).1⟩

/-! ## State-machine lemmas shared by the attempt-lifecycle claims -/

/-- Widget handlers other than Restart never touch the shuffle
structures or the start time, and never hide shown answers. -/
theorem handle_action_fields (original : List Question) (a : UserAction)
    (s : SessionState) (hna : a ≠ UserAction.restart) :
    (handle_action original a s).shuffledQuestions = s.shuffledQuestions ∧
    (handle_action original a s).optionShuffles = s.optionShuffles ∧
    (handle_action original a s).quizStartTime = s.quizStartTime ∧
    (handle_action original a s).timeLimitMinutes = s.timeLimitMinutes ∧
    (s.showAnswers = true → (handle_action original a s).showAnswers = true) := by
  cases a with
  | rerun => simp [handle_action]
  | startQuiz l => simp [handle_action]
  | answer i u =>
    simp only [handle_action]
    (repeat' split) <;> simp
  | submitQuiz =>
    simp only [handle_action]
    (repeat' split) <;> simp
  | toggleReveal b =>
    simp only [handle_action]
    (repeat' split) <;> simp
  | restart => exact absurd rfl hna

/-- The timer block followed by a non-Restart handler preserves the
shuffles, the start time and the limit, and never hides shown answers. -/
theorem timer_action_fields (original : List Question) (now : Int)
    (a : UserAction) (s : SessionState) (hna : a ≠ UserAction.restart) :
    (timer_and_action original now a s).shuffledQuestions =
      s.shuffledQuestions ∧
    (timer_and_action original now a s).optionShuffles = s.optionShuffles ∧
    (timer_and_action original now a s).quizStartTime = s.quizStartTime ∧
    (timer_and_action original now a s).timeLimitMinutes =
      s.timeLimitMinutes ∧
    (s.showAnswers = true →
      (timer_and_action original now a s).showAnswers = true) := by
  obtain ⟨h1, h2, h3, h4, h5⟩ := handle_action_fields original a s hna
  unfold timer_and_action
  cases hq : s.quizStartTime with
  | none =>
    dsimp only
    exact ⟨h1, h2, h3.trans hq, h4, h5⟩
  | some st =>
    dsimp only
    by_cases hsa : s.showAnswers = true
    · simp only [hsa, if_true]
      exact ⟨h1, h2, h3.trans hq, h4, fun _ => h5 hsa⟩
    · have hsa' : s.showAnswers = false := Bool.eq_false_iff.mpr hsa
      simp only [hsa', Bool.false_eq_true, if_false]
      cases htick : tick s.timeLimitMinutes (now - st) with
      | expired => simp [hsa']
      | unlimited => exact ⟨h1, h2, h3.trans hq, h4, fun hc => hc.elim⟩
      | remaining r => exact ⟨h1, h2, h3.trans hq, h4, fun hc => hc.elim⟩

/-- A rerun on a started-or-ended attempt whose shuffles exist (or whose
document has no questions) skips the reset and regeneration blocks: it
is exactly the timer block plus the widget handlers. -/
theorem step_eq_timer_action (original : List Question) (inp : StepInput)
    (s : SessionState)
    (hp : s.quizStartTime ≠ none ∨ s.showAnswers = true)
    (hsq : s.shuffledQuestions ≠ none ∨ original = []) :
    take_quiz_step original inp s =
      timer_and_action original inp.now inp.act s := by
  obtain ⟨act, now, rq, ro⟩ := inp
  unfold take_quiz_step
  have hcond : (decide (s.quizStartTime = none) && !s.showAnswers) = false := by
    rcases hp with h | h
    · simp [h]
    · simp [h]
  have hcond2 : (decide (s.shuffledQuestions = none) && !original.isEmpty) =
      false := by
    rcases hsq with h | h
    · simp [h]
    · simp [h]
  simp only [hcond, Bool.false_eq_true, if_false, hcond2]
  cases act with
  | startQuiz l => rfl
  | rerun => rfl
  | answer i u => rfl
  | submitQuiz => rfl
  | toggleReveal b => rfl
  | restart => rfl

/-- Any rerun without Restart, on a started-or-ended attempt whose
shuffles exist, preserves both shuffle structures and the invariant
itself. -/
theorem step_preserves_shuffles (original : List Question)
    (inp : StepInput) (s : SessionState)
    (hna : inp.act ≠ UserAction.restart)
    (hp : s.quizStartTime ≠ none ∨ s.showAnswers = true)
    (hsq : s.shuffledQuestions ≠ none ∨ original = []) :
    (take_quiz_step original inp s).shuffledQuestions =
      s.shuffledQuestions ∧
    (take_quiz_step original inp s).optionShuffles = s.optionShuffles ∧
    ((take_quiz_step original inp s).quizStartTime ≠ none ∨
      (take_quiz_step original inp s).showAnswers = true) ∧
    ((take_quiz_step original inp s).shuffledQuestions ≠ none ∨
      original = []) := by
  rw [step_eq_timer_action original inp s hp hsq]
  obtain ⟨h1, h2, h3, h4, h5⟩ :=
    timer_action_fields original inp.now inp.act s hna
  refine ⟨h1, h2, ?_, ?_⟩
  · rcases hp with h | h
    · exact Or.inl (h3 ▸ h)
    · exact Or.inr (h5 h)
  · rcases hsq with h | h
    · exact Or.inl (h1 ▸ h)
    · exact Or.inr h

/-- Shuffle preservation extends over any restart-free run. -/
theorem run_preserves_shuffles (original : List Question) :
    ∀ (inps : List StepInput) (s : SessionState),
      (∀ inp ∈ inps, inp.act ≠ UserAction.restart) →
      (s.quizStartTime ≠ none ∨ s.showAnswers = true) →
      (s.shuffledQuestions ≠ none ∨ original = []) →
      (run_steps original inps s).shuffledQuestions =
        s.shuffledQuestions ∧
      (run_steps original inps s).optionShuffles = s.optionShuffles := by
  intro inps
  induction inps with
  | nil => intro s _ _ _; exact ⟨rfl, rfl⟩
  | cons inp rest ih =>
    intro s hnr hp hsq
    obtain ⟨h1, h2, h3, h4⟩ := step_preserves_shuffles original inp s
      (hnr inp (List.mem_cons_self inp rest)) hp hsq
    have hrest := ih (take_quiz_step original inp s)
      (fun i hi => hnr i (List.mem_cons_of_mem inp hi)) h3 h4
    unfold run_steps at hrest ⊢
    rw [List.foldl_cons]
    exact ⟨hrest.1.trans h1, hrest.2.trans h2⟩

/-- Pressing Start while configuring generates both shuffle structures
from this rerun, records the chosen limit and the start time, and
touches nothing else. -/
theorem start_step_generates (original : List Question) (s0 : SessionState)
    (lim : Option Nat) (inp : StepInput)
    (h0 : s0.quizStartTime = none) (h1 : s0.showAnswers = false)
    (hne : original ≠ []) (hact : inp.act = UserAction.startQuiz lim) :
    take_quiz_step original inp s0 =
      { s0 with shuffledQuestions := some (gen_shuffled inp.randQ original),
                optionShuffles := gen_option_shuffles inp.randO original,
                timeLimitMinutes := lim,
                quizStartTime := some inp.now } := by
  obtain ⟨act, now, rq, ro⟩ := inp
  simp only at hact
  subst hact
  obtain ⟨ua, sa, sc, qst, tl, te, rc, sq, os, qz, sel⟩ := s0
  simp only at h0 h1
  subst h0
  subst h1
  cases original with
  | nil => exact absurd rfl hne
  | cons q qs => rfl

/-! ## C8: shuffle-generation invariant -/

/-- C8.  The question order and the per-question option orders are
generated exactly at the transition out of the configuring phase (the
Start rerun) from that rerun's randomness, and any restart-free sequence
of later reruns — answers, submits, timer ticks, reveal toggles — leaves
both structures exactly as generated. -/
theorem shuffle_generation_invariant (original : List Question)
    (s0 : SessionState) (lim : Option Nat) (inp0 : StepInput)
    (rest : List StepInput)
    (h0 : s0.quizStartTime = none) (h1 : s0.showAnswers = false)
    (hne : original ≠ []) (hact : inp0.act = UserAction.startQuiz lim)
    (hnr : ∀ inp ∈ rest, inp.act ≠ UserAction.restart) :
    (take_quiz_step original inp0 s0).shuffledQuestions =
      some (gen_shuffled inp0.randQ original) ∧
    (take_quiz_step original inp0 s0).optionShuffles =
      gen_option_shuffles inp0.randO original ∧
    (run_steps original rest
        (take_quiz_step original inp0 s0)).shuffledQuestions =
      some (gen_shuffled inp0.randQ original) ∧
    (run_steps original rest
        (take_quiz_step original inp0 s0)).optionShuffles =
      gen_option_shuffles inp0.randO original := by
  have hstart := start_step_generates original s0 lim inp0 h0 h1 hne hact
  have hs1 : (take_quiz_step original inp0 s0).shuffledQuestions =
      some (gen_shuffled inp0.randQ original) := by rw [hstart]
  have hs2 : (take_quiz_step original inp0 s0).optionShuffles =
      gen_option_shuffles inp0.randO original := by rw [hstart]
  have hrun := run_preserves_shuffles original rest
    (take_quiz_step original inp0 s0) hnr
    (Or.inl (by rw [hstart]; simp))
    (Or.inl (by rw [hs1]; simp))
  exact ⟨hs1, hs2, hrun.1.trans hs1, hrun.2.trans hs2⟩

/-- Closed instance of C8: start, answer, tick, and submit leave the
shuffles exactly as generated at the Start rerun. -/
theorem shuffle_generation_invariant_witness :
    (run_steps [q1ex]
        [⟨UserAction.answer 0 1, 1, [9], fun _ => [9]⟩,
         ⟨UserAction.rerun, 2, [9], fun _ => [9]⟩,
         ⟨UserAction.submitQuiz, 3, [9], fun _ => [9]⟩]
        (take_quiz_step [q1ex]
          ⟨UserAction.startQuiz none, 0, [0], fun _ => [2, 0, 1]⟩
          (initial_state [("T", emptyDoc)] (some "T")))).shuffledQuestions =
      some (gen_shuffled [0] [q1ex]) ∧
    (run_steps [q1ex]
        [⟨UserAction.answer 0 1, 1, [9], fun _ => [9]⟩,
         ⟨UserAction.rerun, 2, [9], fun _ => [9]⟩,
         ⟨UserAction.submitQuiz, 3, [9], fun _ => [9]⟩]
        (take_quiz_step [q1ex]
          ⟨UserAction.startQuiz none, 0, [0], fun _ => [2, 0, 1]⟩
          (initial_state [("T", emptyDoc)] (some "T")))).optionShuffles =
      gen_option_shuffles (fun _ => [2, 0, 1]) [q1ex] :=
  ⟨(shuffle_generation_invariant [q1ex]
      (initial_state [("T", emptyDoc)] (some "T")) none
      ⟨UserAction.startQuiz none, 0, [0], fun _ => [2, 0, 1]⟩
      [⟨UserAction.answer 0 1, 1, [9], fun _ => [9]⟩,
       ⟨UserAction.rerun, 2, [9], fun _ => [9]⟩,
       ⟨UserAction.submitQuiz, 3, [9], fun _ => [9]⟩]
      rfl rfl (by decide) rfl (by decide)).2.2.1,
   (shuffle_generation_invariant [q1ex]
      (initial_state [("T", emptyDoc)] (some "T")) none
      ⟨UserAction.startQuiz none, 0, [0], fun _ => [2, 0, 1]⟩
      [⟨UserAction.answer 0 1, 1, [9], fun _ => [9]⟩,
       ⟨UserAction.rerun, 2, [9], fun _ => [9]⟩,
       ⟨UserAction.submitQuiz, 3, [9], fun _ => [9]⟩]
      rfl rfl (by decide) rfl (by decide)).2.2.2⟩

/-! ## C9: restart frame and isolation -/

/-- C9.  Restart on an ended attempt discards all per-attempt state
unconditionally — the resulting session equals the initial defaults:
empty responses, no score, no start time, no limit, cleared
timer-expired and reveal flags, and both shuffle structures reset —
while the in-memory quiz documents and the selection are left unchanged;
and a subsequent Start on the same document generates both orders
freshly from that rerun's randomness, with responses still empty. -/
theorem restart_frame (original : List Question) (s : SessionState)
    (inp : StepInput) (hact : inp.act = UserAction.restart)
    (hend : s.showAnswers = true) :
    take_quiz_step original inp s =
      initial_state s.quizzes s.selectedQuiz ∧
    (take_quiz_step original inp s).quizzes = s.quizzes ∧
    (take_quiz_step original inp s).selectedQuiz = s.selectedQuiz ∧
    (∀ (inp2 : StepInput) (lim : Option Nat),
      inp2.act = UserAction.startQuiz lim → original ≠ [] →
      (take_quiz_step original inp2
          (take_quiz_step original inp s)).userAnswers = [] ∧
      (take_quiz_step original inp2
          (take_quiz_step original inp s)).shuffledQuestions =
        some (gen_shuffled inp2.randQ original) ∧
      (take_quiz_step original inp2
          (take_quiz_step original inp s)).optionShuffles =
        gen_option_shuffles inp2.randO original) := by
  have hmain : take_quiz_step original inp s =
      initial_state s.quizzes s.selectedQuiz := by
    obtain ⟨act, now, rq, ro⟩ := inp
    simp only at hact
    subst hact
    obtain ⟨ua, sa, sc, qst, tl, te, rc, sq, os, qz, sel⟩ := s
    simp only at hend
    subst hend
    unfold take_quiz_step
    simp only [Bool.not_true, Bool.and_false, Bool.false_eq_true, if_false]
    split
    · cases qst <;>
        simp [timer_and_action, handle_action, quiz_ended, reset_attempt,
          initial_state]
    · cases qst <;>
        simp [timer_and_action, handle_action, quiz_ended, reset_attempt,
          initial_state]
  refine ⟨hmain, by rw [hmain]; rfl, by rw [hmain]; rfl, ?_⟩
  intro inp2 lim hact2 hne
  have h2 := start_step_generates original
    (initial_state s.quizzes s.selectedQuiz) lim inp2 rfl rfl hne hact2
  rw [hmain, h2]
  exact ⟨rfl, rfl, rfl⟩

/-- Closed instance of C9: restarting an ended attempt resets the
session to the defaults, keeps the quiz map, and a fresh start shuffles
from the new randomness with no responses. -/
theorem restart_frame_witness :
    take_quiz_step [q1ex] ⟨UserAction.restart, 50, [7], fun _ => [7]⟩
        sEndedEx = initial_state [("T", emptyDoc)] (some "T") ∧
    (take_quiz_step [q1ex]
        ⟨UserAction.startQuiz (some 5), 60, [0], fun _ => [1, 0, 2]⟩
        (take_quiz_step [q1ex]
          ⟨UserAction.restart, 50, [7], fun _ => [7]⟩
          sEndedEx)).userAnswers = [] ∧
    (take_quiz_step [q1ex]
        ⟨UserAction.startQuiz (some 5), 60, [0], fun _ => [1, 0, 2]⟩
        (take_quiz_step [q1ex]
          ⟨UserAction.restart, 50, [7], fun _ => [7]⟩
          sEndedEx)).shuffledQuestions =
      some (gen_shuffled [0] [q1ex]) :=
  ⟨(restart_frame [q1ex] sEndedEx
      ⟨UserAction.restart, 50, [7], fun _ => [7]⟩ rfl rfl).1,
   ((restart_frame [q1ex] sEndedEx
      ⟨UserAction.restart, 50, [7], fun _ => [7]⟩ rfl rfl).2.2.2
      ⟨UserAction.startQuiz (some 5), 60, [0], fun _ => [1, 0, 2]⟩
      (some 5) rfl (by decide)).1,
   ((restart_frame [q1ex] sEndedEx
      ⟨UserAction.restart, 50, [7], fun _ => [7]⟩ rfl rfl).2.2.2
      ⟨UserAction.startQuiz (some 5), 60, [0], fun _ => [1, 0, 2]⟩
      (some 5) rfl (by decide)).2.1⟩

/-! ## C3: timer-expiry auto-submission -/

/-- Once answers are shown, an answer intent no longer mutates the
recorded responses: the radio is disabled. -/
theorem answer_suppressed (original : List Question) (inp : StepInput)
    (s : SessionState) (hsa : s.showAnswers = true) (i u : Nat)
    (hact : inp.act = UserAction.answer i u) :
    (take_quiz_step original inp s).userAnswers = s.userAnswers := by
  obtain ⟨act, now, rq, ro⟩ := inp
  simp only at hact
  subst hact
  obtain ⟨ua, sa, sc, qst, tl, te, rc, sq, os, qz, sel⟩ := s
  simp only at hsa
  subst hsa
  unfold take_quiz_step
  simp only [Bool.not_true, Bool.and_false, Bool.false_eq_true, if_false]
  split <;> cases qst <;>
    simp [timer_and_action, handle_action]

/-- A manual submit on an unstarted-timer attempt never sets the
timer-expired flag: the flag is set by expiry alone. -/
theorem submit_keeps_flag (original : List Question) (inp : StepInput)
    (s2 : SessionState) (hact : inp.act = UserAction.submitQuiz)
    (hq : s2.quizStartTime = none) (hte : s2.timerExpired = false) :
    (take_quiz_step original inp s2).timerExpired = false := by
  obtain ⟨act, now, rq, ro⟩ := inp
  simp only at hact
  subst hact
  obtain ⟨ua, sa, sc, qst, tl, te, rc, sq, os, qz, sel⟩ := s2
  simp only at hq hte
  subst hq
  subst hte
  cases sa <;> cases sq <;> cases original <;>
    · unfold take_quiz_step
      (repeat' split) <;>
        simp_all [timer_and_action, handle_action, quiz_ended] <;>
        (repeat' split) <;> rfl

/-- C3 fails as stated: on expiry the attempt ends with the
timer-expired flag set and input suppressed, but no score is computed —
`score` stays `none` — while a manual submit from the very same state
does compute one. -/
theorem timer_expiry_counterexample :
    (take_quiz_step [q1ex] ⟨UserAction.rerun, 301, [], fun _ => []⟩
        sIpEx).timerExpired = true ∧
    (take_quiz_step [q1ex] ⟨UserAction.rerun, 301, [], fun _ => []⟩
        sIpEx).showAnswers = true ∧
    (take_quiz_step [q1ex] ⟨UserAction.rerun, 301, [], fun _ => []⟩
        sIpEx).score = none ∧
    (take_quiz_step [q1ex] ⟨UserAction.submitQuiz, 100, [], fun _ => []⟩
        sIpEx).score = some (1, 1) :=
  ⟨by decide, by decide, by decide, by decide⟩

/-- C3 (amended).  When a time limit is set and the remaining time
reaches 0 while the attempt is in progress, the rerun — whatever intent
it carries — transitions the attempt to the ended phase with the
timer-expired flag set (a flag manual submission never sets), leaves the
responses untouched, suppresses any further answer input, and shares the
ended-phase display path; but no score is computed at expiry: the score
field is left exactly as it was (in particular `none` when the attempt
was never submitted), unlike a manual submit. -/
theorem timer_expiry_amended (original : List Question) (s : SessionState)
    (inp : StepInput) (st : Int) (m : Nat)
    (hst : s.quizStartTime = some st) (hsh : s.showAnswers = false)
    (hlim : s.timeLimitMinutes = some m) (hm : 0 < m)
    (hexp : 60 * (m : Int) ≤ inp.now - st) :
    (take_quiz_step original inp s).timerExpired = true ∧
    (take_quiz_step original inp s).showAnswers = true ∧
    (take_quiz_step original inp s).score = s.score ∧
    (take_quiz_step original inp s).userAnswers = s.userAnswers ∧
    (∀ (inp2 : StepInput) (i u : Nat),
      inp2.act = UserAction.answer i u →
      (take_quiz_step original inp2
          (take_quiz_step original inp s)).userAnswers =
        (take_quiz_step original inp s).userAnswers) ∧
    (∀ (s2 : SessionState) (inp3 : StepInput),
      inp3.act = UserAction.submitQuiz → s2.quizStartTime = none →
      s2.timerExpired = false →
      (take_quiz_step original inp3 s2).timerExpired = false) := by
  have hmain : (take_quiz_step original inp s).timerExpired = true ∧
      (take_quiz_step original inp s).showAnswers = true ∧
      (take_quiz_step original inp s).score = s.score ∧
      (take_quiz_step original inp s).userAnswers = s.userAnswers := by
    obtain ⟨act, now, rq, ro⟩ := inp
    simp only at hexp
    obtain ⟨ua, sa, sc, qst, tl, te, rc, sq, os, qz, sel⟩ := s
    simp only at hst hsh hlim
    subst hst
    subst hsh
    subst hlim
    have htick : tick (some m) (now - st) = TimerStatus.expired := by
      unfold tick
      have hm0 : ¬ m = 0 := by omega
      simp only [hm0, if_false]
      have hmx : max 0 (60 * (m : Int) - (now - st)) = 0 :=
        max_eq_left (by omega)
      simp [hmx]
    unfold take_quiz_step
    cases act <;> cases sq <;> cases original <;>
      split_ifs <;>
        simp_all [timer_and_action, handle_action, htick]
  refine ⟨hmain.1, hmain.2.1, hmain.2.2.1, hmain.2.2.2, ?_, ?_⟩
  · intro inp2 i u hact2
    exact answer_suppressed original inp2 (take_quiz_step original inp s)
      hmain.2.1 i u hact2
  · intro s2 inp3 hact3 hq3 hte3
    exact submit_keeps_flag original inp3 s2 hact3 hq3 hte3

/-- Closed instance of C3 (amended): a five-minute attempt started at
time 0 observed at time 301. -/
theorem timer_expiry_amended_witness :
    (take_quiz_step [q1ex] ⟨UserAction.rerun, 301, [], fun _ => []⟩
        sIpEx).timerExpired = true ∧
    (take_quiz_step [q1ex] ⟨UserAction.rerun, 301, [], fun _ => []⟩
        sIpEx).score = sIpEx.score ∧
    (take_quiz_step [q1ex] ⟨UserAction.answer 0 2, 302, [], fun _ => []⟩
        (take_quiz_step [q1ex] ⟨UserAction.rerun, 301, [], fun _ => []⟩
          sIpEx)).userAnswers =
      (take_quiz_step [q1ex] ⟨UserAction.rerun, 301, [], fun _ => []⟩
        sIpEx).userAnswers :=
  ⟨(timer_expiry_amended [q1ex] sIpEx
      ⟨UserAction.rerun, 301, [], fun _ => []⟩ 0 5 rfl rfl rfl
      (by decide) (by decide)).1,
   (timer_expiry_amended [q1ex] sIpEx
      ⟨UserAction.rerun, 301, [], fun _ => []⟩ 0 5 rfl rfl rfl
      (by decide) (by decide)).2.2.1,
   (timer_expiry_amended [q1ex] sIpEx
      ⟨UserAction.rerun, 301, [], fun _ => []⟩ 0 5 rfl rfl rfl
      (by decide) (by decide)).2.2.2.2.1
      ⟨UserAction.answer 0 2, 302, [], fun _ => []⟩ 0 2 rfl⟩

end MyQuiz
